import Mathlib

/-!
Shallow embedding of `src/Solana_Raffle/example-helloworld-master/src/program-rust/src/lib.rs`,
the `nftraffle` Anchor program (struct `NFTRaffle` and its methods).

Modelling conventions:
* `Pubkey` is modelled as `Nat`; `Pubkey::default()` is the sentinel `0`.
* The Rust `HashMap<Pubkey, u64>` field `entry_count` is modelled as an
  association list `List (Pubkey × Nat)` with the usual lookup; the code's
  `entry(k).or_insert(0)` followed by `get_mut(k) += n` is the combined
  operation `hmAddTo`.
* `u64` values are modelled as `Nat`.  The multiplication
  `entry_cost * number_of_entries` in `buy_entry` is taken modulo `2^64`,
  since that overflow is reachable with small inputs (release-mode Rust
  wraps).  The additions `total_entries += n` and `entry_count[p] += n` are
  left unwrapped: overflowing them would require the same call sequence to
  have pushed at least `2^64` elements onto the `player_selector` vector,
  which no execution of the program can do, so on every realizable trace the
  unwrapped model agrees with the machine arithmetic.
* External collaborators (the payer's lamport balance, the entropy source
  `rand::random`, the prize `transfer`, the collected balance) are inputs to
  the operations.
* Each method is a function `State → args → Option ErrorCode × State`: the
  first component is `some e` when the Rust function returns `Err(e)`, and
  the second component is the raffle account state at the point of return
  (Rust mutates in place, so an early return keeps mutations made so far;
  in this program all validations precede all writes).
* The source's `ErrorCode` enum declares only three variants but the methods
  refer to several more (the Rust as written would not compile); the model
  includes every variant the methods name, plus `TransferFailed` for the
  error propagated by the `?` on the prize transfer in `select_winner`.
-/

namespace Raffle

abbrev Pubkey := Nat

def Pubkey.default : Pubkey := 0

/-- `2^64`, the modulus of Rust `u64` arithmetic. -/
def U64MOD : Nat := 2 ^ 64

/-- Association-list lookup, modelling `HashMap::get`. -/
def hmLookup : List (Pubkey × Nat) → Pubkey → Option Nat
  | [], _ => none
  | (a, v) :: t, k => if a = k then some v else hmLookup t k

/-- `m.entry(k).or_insert(0); *m.get_mut(k).unwrap() += n` as one operation. -/
def hmAddTo : List (Pubkey × Nat) → Pubkey → Nat → List (Pubkey × Nat)
  | [], k, n => [(k, n)]
  | (a, v) :: t, k, n => if a = k then (a, v + n) :: t else (a, v) :: hmAddTo t k n

/-- Sum of the values of the map, `sum(entry_count.values())`. -/
def sumValues : List (Pubkey × Nat) → Nat
  | [] => 0
  | (_, v) :: t => v + sumValues t

/-- All error codes the program's methods return. -/
inductive ErrorCode where
  | RaffleAlreadyStarted
  | NFTPrizeAlreadySet
  | OwnerDoesNotOwnNFT
  | RaffleNotStarted
  | InsufficientFunds
  | RaffleStillRunning
  | NoPlayerInRaffle
  | NFTPrizeNotSet
  | RaffleInProgress
  | NoBalanceToWithdraw
  | TransferFailed
  deriving Repr, DecidableEq

/-- The `#[state] pub struct NFTRaffle` account data. -/
structure NFTRaffle where
  owner : Pubkey
  entry_count : List (Pubkey × Nat)
  players : List Pubkey
  player_selector : List Pubkey
  raffle_status : Bool
  entry_cost : Nat
  nft_address : Pubkey
  nft_id : Nat
  total_entries : Nat
  deriving Repr, DecidableEq

/-- `NFTRaffle::new`: a fresh account (Anchor `init` zeroes the account, so
the collection fields start empty and `nft_address` is the default pubkey). -/
def NFTRaffle.new (owner entry_cost : Nat) : NFTRaffle :=
  { owner := owner
    entry_count := []
    players := []
    player_selector := []
    raffle_status := false
    entry_cost := entry_cost
    nft_address := Pubkey.default
    nft_id := 0
    total_entries := 0 }

/-- `initialize_raffle(ctx, nft_address, nft_id)`; `owner_key` is
`ctx.accounts.owner.key` (an arbitrary, unconstrained `AccountInfo`). -/
def initialize_raffle (s : NFTRaffle) (owner_key nft_address : Pubkey)
    (nft_id : Nat) : Option ErrorCode × NFTRaffle :=
  if s.raffle_status then
    (some .RaffleAlreadyStarted, s)
  else if s.nft_address ≠ Pubkey.default then
    (some .NFTPrizeAlreadySet, s)
  else if owner_key ≠ nft_address then
    (some .OwnerDoesNotOwnNFT, s)
  else
    (none, { s with nft_address := nft_address, nft_id := nft_id,
                    raffle_status := true })

/-- `buy_entry(ctx, number_of_entries)`; `player` is `ctx.accounts.player.key`
and `payer_lamports` is `ctx.accounts.payer.lamports()`. -/
def buy_entry (s : NFTRaffle) (player : Pubkey)
    (payer_lamports number_of_entries : Nat) : Option ErrorCode × NFTRaffle :=
  if !s.raffle_status then
    (some .RaffleNotStarted, s)
  else
    let required_amount := s.entry_cost * number_of_entries % U64MOD
    if payer_lamports < required_amount then
      (some .InsufficientFunds, s)
    else
      (none, { s with
        entry_count := hmAddTo s.entry_count player number_of_entries
        total_entries := s.total_entries + number_of_entries
        players := if s.players.contains player then s.players
                   else s.players ++ [player]
        player_selector :=
          s.player_selector ++ List.replicate number_of_entries player })

/-- `end_raffle(ctx)`; `caller` stands for the invoking identity — the body
performs no check on it (the `EndRaffle` accounts are unconstrained). -/
def end_raffle (s : NFTRaffle) (caller : Pubkey) : Option ErrorCode × NFTRaffle :=
  if !s.raffle_status then
    (some .RaffleNotStarted, s)
  else
    (none, { s with raffle_status := false })

/-- The winner computed by `select_winner`:
`player_selector[(rand::random::<usize>()) % player_selector.len()]`. -/
def winner_of (s : NFTRaffle) (random_value : Nat) : Pubkey :=
  s.player_selector.getD (random_value % s.player_selector.length) Pubkey.default

/-- `select_winner(ctx)`.  `random_value` is the value drawn from
`rand::random::<usize>()`; `transfer_ok w` tells whether
`nft_address.transfer(owner, w, nft_id)` succeeds (its failure is propagated
by `?` before any field is written). -/
def select_winner (s : NFTRaffle) (caller : Pubkey) (random_value : Nat)
    (transfer_ok : Pubkey → Bool) : Option ErrorCode × NFTRaffle :=
  if s.raffle_status then
    (some .RaffleStillRunning, s)
  else if s.player_selector.isEmpty then
    (some .NoPlayerInRaffle, s)
  else if s.nft_address = Pubkey.default then
    (some .NFTPrizeNotSet, s)
  else if !transfer_ok (winner_of s random_value) then
    (some .TransferFailed, s)
  else
    (none, { s with
      entry_count := []
      players := []
      player_selector := []
      nft_address := Pubkey.default
      nft_id := 0
      total_entries := 0 })

/-- `change_entry_cost(ctx, new_entry_cost)`; `caller` as in `end_raffle`. -/
def change_entry_cost (s : NFTRaffle) (caller : Pubkey)
    (new_entry_cost : Nat) : Option ErrorCode × NFTRaffle :=
  if s.raffle_status then
    (some .RaffleInProgress, s)
  else
    (none, { s with entry_cost := new_entry_cost })

/-- Modelled from the spec: `raffle.balance()` is one of the methods the
source omits (`// Other methods omitted for brevity`), so the collected
balance is taken as an external input tracked by the custody collaborator.
`withdraw_balance(ctx)` fails when it is zero and otherwise credits the
`owner` account's lamports, which lie outside the `NFTRaffle` state; the
ledger fields themselves are never written. -/
def withdraw_balance (s : NFTRaffle) (caller : Pubkey)
    (balance : Nat) : Option ErrorCode × NFTRaffle :=
  if balance = 0 then
    (some .NoBalanceToWithdraw, s)
  else
    (none, s)

/-- `reset_contract(ctx)`; `caller` as in `end_raffle`.  Never fails. -/
def reset_contract (s : NFTRaffle) (caller : Pubkey) : Option ErrorCode × NFTRaffle :=
  (none, { s with
    entry_count := []
    players := []
    player_selector := []
    raffle_status := false
    nft_address := Pubkey.default
    nft_id := 0
    entry_cost := 0
    total_entries := 0 })

/-- One invocation of the program, with the external inputs it consumes. -/
inductive Op where
  | initRaffle (owner_key nft_address : Pubkey) (nft_id : Nat)
  | buy (player : Pubkey) (payer_lamports number_of_entries : Nat)
  | endRaffle (caller : Pubkey)
  | draw (caller : Pubkey) (random_value : Nat) (transfer_ok : Pubkey → Bool)
  | changeCost (caller : Pubkey) (new_entry_cost : Nat)
  | withdraw (caller : Pubkey) (balance : Nat)
  | reset (caller : Pubkey)

/-- Dispatch one operation. -/
def step (s : NFTRaffle) : Op → Option ErrorCode × NFTRaffle
  | .initRaffle ok addr i => initialize_raffle s ok addr i
  | .buy p lam n => buy_entry s p lam n
  | .endRaffle c => end_raffle s c
  | .draw c r t => select_winner s c r t
  | .changeCost c n => change_entry_cost s c n
  | .withdraw c b => withdraw_balance s c b
  | .reset c => reset_contract s c

/-- Run a sequence of operations (each call commits whatever state the
method left behind, error or not — in-place mutation semantics). -/
def run (s : NFTRaffle) (ops : List Op) : NFTRaffle :=
  ops.foldl (fun s op => (step s op).2) s

/-- The counting invariant of the data model:
`total_entries == sum(entry_count.values()) == len(player_selector)`. -/
def countInv (s : NFTRaffle) : Prop :=
  s.total_entries = sumValues s.entry_count ∧
  s.total_entries = s.player_selector.length

instance (s : NFTRaffle) : Decidable (countInv s) := by
  unfold countInv; infer_instance

/-- The membership invariant of the data model: every identity in the ticket
pool is a player, and every player has a positive entry count. -/
def memInv (s : NFTRaffle) : Prop :=
  (∀ p ∈ s.player_selector, p ∈ s.players) ∧
  (∀ p ∈ s.players, 0 < (hmLookup s.entry_count p).getD 0)

instance (s : NFTRaffle) : Decidable (memInv s) := by
  unfold memInv; infer_instance

/-- `true` unless the operation is a `buy` of zero entries. -/
def buysPositive : Op → Bool
  | .buy _ _ n => decide (1 ≤ n)
  | _ => true

/-- A reachable active raffle: owner `1`, entry cost `10`, prize asset `5`
(assigned by caller `5`, the only caller `initialize_raffle` accepts). -/
def exampleActive : NFTRaffle :=
  run (NFTRaffle.new 1 10) [Op.initRaffle 5 5 1]

/-- A reachable closed raffle with entries: player `7` bought `2` entries
with `30` lamports, then the raffle was ended. -/
def exampleClosed : NFTRaffle :=
  run (NFTRaffle.new 1 10) [Op.initRaffle 5 5 1, Op.buy 7 30 2, Op.endRaffle 1]

/-- A reachable active raffle whose entry cost is `2^63`, so that buying two
entries makes the `u64` product `entry_cost * number_of_entries` wrap to 0. -/
def overflowActive : NFTRaffle :=
  run (NFTRaffle.new 1 (2 ^ 63)) [Op.initRaffle 5 5 1]

/-! ### Lemmas about the association-list operations -/

theorem sumValues_hmAddTo (m : List (Pubkey × Nat)) (k : Pubkey) (n : Nat) :
    sumValues (hmAddTo m k n) = sumValues m + n := by
  induction m with
  | nil => simp [hmAddTo, sumValues]
  | cons hd t ih =>
    obtain ⟨a, v⟩ := hd
    by_cases hak : a = k
    · simp [hmAddTo, hak, sumValues]; omega
    · simp [hmAddTo, hak, sumValues, ih]; omega

theorem hmLookup_hmAddTo_self (m : List (Pubkey × Nat)) (k : Pubkey) (n : Nat) :
    hmLookup (hmAddTo m k n) k = some ((hmLookup m k).getD 0 + n) := by
  induction m with
  | nil => simp [hmAddTo, hmLookup]
  | cons hd t ih =>
    obtain ⟨a, v⟩ := hd
    by_cases hak : a = k
    · simp [hmAddTo, hak, hmLookup]
    · simp [hmAddTo, hak, hmLookup, ih]

theorem hmLookup_hmAddTo_ne (m : List (Pubkey × Nat)) (k q : Pubkey) (n : Nat)
    (h : q ≠ k) : hmLookup (hmAddTo m k n) q = hmLookup m q := by
  have hkq : ¬ k = q := fun hh => h hh.symm
  induction m with
  | nil => simp [hmAddTo, hmLookup, hkq]
  | cons hd t ih =>
    obtain ⟨a, v⟩ := hd
    by_cases hak : a = k
    · subst hak
      simp [hmAddTo, hmLookup, hkq]
    · simp [hmAddTo, hak, hmLookup, ih]

/-! ### Branch equations for each operation -/

theorem init_already (s : NFTRaffle) (ok addr : Pubkey) (i : Nat)
    (hs : s.raffle_status = true) :
    initialize_raffle s ok addr i = (some .RaffleAlreadyStarted, s) := by
  simp [initialize_raffle, hs]

theorem init_prize_set (s : NFTRaffle) (ok addr : Pubkey) (i : Nat)
    (hs : s.raffle_status = false) (hn : s.nft_address ≠ Pubkey.default) :
    initialize_raffle s ok addr i = (some .NFTPrizeAlreadySet, s) := by
  simp [initialize_raffle, hs, hn]

theorem init_not_owner (s : NFTRaffle) (ok addr : Pubkey) (i : Nat)
    (hs : s.raffle_status = false) (hn : s.nft_address = Pubkey.default)
    (ho : ok ≠ addr) :
    initialize_raffle s ok addr i = (some .OwnerDoesNotOwnNFT, s) := by
  simp [initialize_raffle, hs, hn, ho]

theorem init_ok (s : NFTRaffle) (ok addr : Pubkey) (i : Nat)
    (hs : s.raffle_status = false) (hn : s.nft_address = Pubkey.default)
    (ho : ok = addr) :
    initialize_raffle s ok addr i =
      (none, { s with nft_address := addr, nft_id := i, raffle_status := true }) := by
  simp [initialize_raffle, hs, hn, ho]

theorem buy_entry_not_started (s : NFTRaffle) (p : Pubkey) (lam n : Nat)
    (hs : s.raffle_status = false) :
    buy_entry s p lam n = (some .RaffleNotStarted, s) := by
  simp [buy_entry, hs]

theorem buy_entry_insufficient (s : NFTRaffle) (p : Pubkey) (lam n : Nat)
    (hs : s.raffle_status = true) (hlam : lam < s.entry_cost * n % U64MOD) :
    buy_entry s p lam n = (some .InsufficientFunds, s) := by
  simp [buy_entry, hs, hlam]

theorem buy_entry_ok (s : NFTRaffle) (p : Pubkey) (lam n : Nat)
    (hs : s.raffle_status = true) (hlam : ¬ lam < s.entry_cost * n % U64MOD) :
    buy_entry s p lam n = (none, { s with
      entry_count := hmAddTo s.entry_count p n
      total_entries := s.total_entries + n
      players := if s.players.contains p then s.players else s.players ++ [p]
      player_selector := s.player_selector ++ List.replicate n p }) := by
  simp [buy_entry, hs, hlam]

theorem end_not_started (s : NFTRaffle) (c : Pubkey)
    (hs : s.raffle_status = false) :
    end_raffle s c = (some .RaffleNotStarted, s) := by
  simp [end_raffle, hs]

theorem end_ok (s : NFTRaffle) (c : Pubkey) (hs : s.raffle_status = true) :
    end_raffle s c = (none, { s with raffle_status := false }) := by
  simp [end_raffle, hs]

theorem sel_running (s : NFTRaffle) (c : Pubkey) (r : Nat)
    (t : Pubkey → Bool) (hs : s.raffle_status = true) :
    select_winner s c r t = (some .RaffleStillRunning, s) := by
  simp [select_winner, hs]

theorem sel_empty (s : NFTRaffle) (c : Pubkey) (r : Nat) (t : Pubkey → Bool)
    (hs : s.raffle_status = false) (he : s.player_selector = []) :
    select_winner s c r t = (some .NoPlayerInRaffle, s) := by
  simp [select_winner, hs, he]

theorem sel_no_prize (s : NFTRaffle) (c : Pubkey) (r : Nat) (t : Pubkey → Bool)
    (hs : s.raffle_status = false) (he : s.player_selector ≠ [])
    (hp : s.nft_address = Pubkey.default) :
    select_winner s c r t = (some .NFTPrizeNotSet, s) := by
  simp [select_winner, hs, he, hp]

theorem sel_transfer_fail (s : NFTRaffle) (c : Pubkey) (r : Nat)
    (t : Pubkey → Bool) (hs : s.raffle_status = false)
    (he : s.player_selector ≠ []) (hp : s.nft_address ≠ Pubkey.default)
    (ht : t (winner_of s r) = false) :
    select_winner s c r t = (some .TransferFailed, s) := by
  simp [select_winner, hs, he, hp, ht]

theorem sel_ok (s : NFTRaffle) (c : Pubkey) (r : Nat) (t : Pubkey → Bool)
    (hs : s.raffle_status = false) (he : s.player_selector ≠ [])
    (hp : s.nft_address ≠ Pubkey.default) (ht : t (winner_of s r) = true) :
    select_winner s c r t = (none, { s with
      entry_count := []
      players := []
      player_selector := []
      nft_address := Pubkey.default
      nft_id := 0
      total_entries := 0 }) := by
  simp [select_winner, hs, he, hp, ht]

theorem change_in_progress (s : NFTRaffle) (c : Pubkey) (n : Nat)
    (hs : s.raffle_status = true) :
    change_entry_cost s c n = (some .RaffleInProgress, s) := by
  simp [change_entry_cost, hs]

theorem change_ok (s : NFTRaffle) (c : Pubkey) (n : Nat)
    (hs : s.raffle_status = false) :
    change_entry_cost s c n = (none, { s with entry_cost := n }) := by
  simp [change_entry_cost, hs]

theorem withdraw_zero (s : NFTRaffle) (c : Pubkey) :
    withdraw_balance s c 0 = (some .NoBalanceToWithdraw, s) := by
  simp [withdraw_balance]

theorem withdraw_ok (s : NFTRaffle) (c : Pubkey) (b : Nat) (hb : b ≠ 0) :
    withdraw_balance s c b = (none, s) := by
  simp [withdraw_balance, hb]

theorem reset_eq (s : NFTRaffle) (c : Pubkey) :
    reset_contract s c = (none, { s with
      entry_count := []
      players := []
      player_selector := []
      raffle_status := false
      nft_address := Pubkey.default
      nft_id := 0
      entry_cost := 0
      total_entries := 0 }) := rfl

/-! ### Preservation of the counting invariant (claim C2) -/

theorem buy_entry_countInv (s : NFTRaffle) (p : Pubkey) (lam n : Nat)
    (h : countInv s) : countInv (buy_entry s p lam n).2 := by
  obtain ⟨h1, h2⟩ := h
  rcases Bool.eq_false_or_eq_true s.raffle_status with hs | hs
  · by_cases hlam : lam < s.entry_cost * n % U64MOD
    · rw [buy_entry_insufficient s p lam n hs hlam]; exact ⟨h1, h2⟩
    · rw [buy_entry_ok s p lam n hs hlam]
      refine ⟨?_, ?_⟩
      · simp [sumValues_hmAddTo, h1]
      · simp [h2]
  · rw [buy_entry_not_started s p lam n hs]; exact ⟨h1, h2⟩

theorem select_winner_countInv (s : NFTRaffle) (c : Pubkey) (r : Nat)
    (t : Pubkey → Bool) (h : countInv s) :
    countInv (select_winner s c r t).2 := by
  obtain ⟨h1, h2⟩ := h
  rcases Bool.eq_false_or_eq_true s.raffle_status with hs | hs
  · rw [sel_running s c r t hs]; exact ⟨h1, h2⟩
  · by_cases he : s.player_selector = []
    · rw [sel_empty s c r t hs he]; exact ⟨h1, h2⟩
    · by_cases hp : s.nft_address = Pubkey.default
      · rw [sel_no_prize s c r t hs he hp]; exact ⟨h1, h2⟩
      · rcases Bool.eq_false_or_eq_true (t (winner_of s r)) with ht | ht
        · rw [sel_ok s c r t hs he hp ht]; exact ⟨rfl, rfl⟩
        · rw [sel_transfer_fail s c r t hs he hp ht]; exact ⟨h1, h2⟩

theorem step_countInv (s : NFTRaffle) (op : Op) (h : countInv s) :
    countInv (step s op).2 := by
  obtain ⟨h1, h2⟩ := h
  cases op with
  | initRaffle ok addr i =>
    show countInv (initialize_raffle s ok addr i).2
    rcases Bool.eq_false_or_eq_true s.raffle_status with hs | hs
    · rw [init_already s ok addr i hs]; exact ⟨h1, h2⟩
    · by_cases hn : s.nft_address = Pubkey.default
      · by_cases ho : ok = addr
        · rw [init_ok s ok addr i hs hn ho]; exact ⟨h1, h2⟩
        · rw [init_not_owner s ok addr i hs hn ho]; exact ⟨h1, h2⟩
      · rw [init_prize_set s ok addr i hs hn]; exact ⟨h1, h2⟩
  | buy p lam n => exact buy_entry_countInv s p lam n ⟨h1, h2⟩
  | endRaffle c =>
    show countInv (end_raffle s c).2
    rcases Bool.eq_false_or_eq_true s.raffle_status with hs | hs
    · rw [end_ok s c hs]; exact ⟨h1, h2⟩
    · rw [end_not_started s c hs]; exact ⟨h1, h2⟩
  | draw c r t => exact select_winner_countInv s c r t ⟨h1, h2⟩
  | changeCost c n =>
    show countInv (change_entry_cost s c n).2
    rcases Bool.eq_false_or_eq_true s.raffle_status with hs | hs
    · rw [change_in_progress s c n hs]; exact ⟨h1, h2⟩
    · rw [change_ok s c n hs]; exact ⟨h1, h2⟩
  | withdraw c b =>
    show countInv (withdraw_balance s c b).2
    by_cases hb : b = 0
    · subst hb; rw [withdraw_zero s c]; exact ⟨h1, h2⟩
    · rw [withdraw_ok s c b hb]; exact ⟨h1, h2⟩
  | reset c =>
    show countInv (reset_contract s c).2
    rw [reset_eq s c]; exact ⟨rfl, rfl⟩

theorem run_countInv (s : NFTRaffle) (ops : List Op) (h : countInv s) :
    countInv (run s ops) := by
  induction ops generalizing s with
  | nil => exact h
  | cons op t ih => exact ih _ (step_countInv s op h)

/-! ### Preservation of the membership invariant (claims C5, C8) -/

theorem buy_entry_poolSubset (s : NFTRaffle) (p : Pubkey) (lam n : Nat)
    (h : ∀ q ∈ s.player_selector, q ∈ s.players) :
    ∀ q ∈ (buy_entry s p lam n).2.player_selector,
      q ∈ (buy_entry s p lam n).2.players := by
  rcases Bool.eq_false_or_eq_true s.raffle_status with hs | hs
  · by_cases hlam : lam < s.entry_cost * n % U64MOD
    · rw [buy_entry_insufficient s p lam n hs hlam]; exact h
    · rw [buy_entry_ok s p lam n hs hlam]
      intro q hq
      rcases List.mem_append.mp hq with hql | hqr
      · have hq' := h q hql
        by_cases hc : s.players.contains p = true
        · rw [if_pos hc]; exact hq'
        · rw [if_neg hc]
          exact List.mem_append.mpr (Or.inl hq')
      · have hqp : q = p := List.eq_of_mem_replicate hqr
        rw [hqp]
        by_cases hc : s.players.contains p = true
        · rw [if_pos hc]
          exact List.mem_of_elem_eq_true hc
        · rw [if_neg hc]
          exact List.mem_append.mpr (Or.inr (List.mem_singleton.mpr rfl))
  · rw [buy_entry_not_started s p lam n hs]; exact h

theorem buy_entry_posCount (s : NFTRaffle) (p : Pubkey) (lam n : Nat)
    (hn : 1 ≤ n)
    (h : ∀ q ∈ s.players, 0 < (hmLookup s.entry_count q).getD 0) :
    ∀ q ∈ (buy_entry s p lam n).2.players,
      0 < (hmLookup (buy_entry s p lam n).2.entry_count q).getD 0 := by
  rcases Bool.eq_false_or_eq_true s.raffle_status with hs | hs
  · by_cases hlam : lam < s.entry_cost * n % U64MOD
    · rw [buy_entry_insufficient s p lam n hs hlam]; exact h
    · rw [buy_entry_ok s p lam n hs hlam]
      intro q hq
      by_cases hqp : q = p
      · subst hqp
        rw [hmLookup_hmAddTo_self]
        simp only [Option.getD_some]
        omega
      · rw [hmLookup_hmAddTo_ne s.entry_count p q n hqp]
        refine h q ?_
        by_cases hc : s.players.contains p = true
        · rwa [if_pos hc] at hq
        · rw [if_neg hc] at hq
          rcases List.mem_append.mp hq with hq' | hq'
          · exact hq'
          · exact absurd (List.mem_singleton.mp hq') hqp
  · rw [buy_entry_not_started s p lam n hs]; exact h

theorem step_poolSubset (s : NFTRaffle) (op : Op)
    (h : ∀ q ∈ s.player_selector, q ∈ s.players) :
    ∀ q ∈ (step s op).2.player_selector, q ∈ (step s op).2.players := by
  cases op with
  | initRaffle ok addr i =>
    show ∀ q ∈ (initialize_raffle s ok addr i).2.player_selector,
      q ∈ (initialize_raffle s ok addr i).2.players
    rcases Bool.eq_false_or_eq_true s.raffle_status with hs | hs
    · rw [init_already s ok addr i hs]; exact h
    · by_cases hn : s.nft_address = Pubkey.default
      · by_cases ho : ok = addr
        · rw [init_ok s ok addr i hs hn ho]; exact h
        · rw [init_not_owner s ok addr i hs hn ho]; exact h
      · rw [init_prize_set s ok addr i hs hn]; exact h
  | buy p lam n => exact buy_entry_poolSubset s p lam n h
  | endRaffle c =>
    show ∀ q ∈ (end_raffle s c).2.player_selector, q ∈ (end_raffle s c).2.players
    rcases Bool.eq_false_or_eq_true s.raffle_status with hs | hs
    · rw [end_ok s c hs]; exact h
    · rw [end_not_started s c hs]; exact h
  | draw c r t =>
    show ∀ q ∈ (select_winner s c r t).2.player_selector,
      q ∈ (select_winner s c r t).2.players
    rcases Bool.eq_false_or_eq_true s.raffle_status with hs | hs
    · rw [sel_running s c r t hs]; exact h
    · by_cases he : s.player_selector = []
      · rw [sel_empty s c r t hs he]; exact h
      · by_cases hp : s.nft_address = Pubkey.default
        · rw [sel_no_prize s c r t hs he hp]; exact h
        · rcases Bool.eq_false_or_eq_true (t (winner_of s r)) with ht | ht
          · rw [sel_ok s c r t hs he hp ht]
            intro q hq
            simp at hq
          · rw [sel_transfer_fail s c r t hs he hp ht]; exact h
  | changeCost c n =>
    show ∀ q ∈ (change_entry_cost s c n).2.player_selector,
      q ∈ (change_entry_cost s c n).2.players
    rcases Bool.eq_false_or_eq_true s.raffle_status with hs | hs
    · rw [change_in_progress s c n hs]; exact h
    · rw [change_ok s c n hs]; exact h
  | withdraw c b =>
    show ∀ q ∈ (withdraw_balance s c b).2.player_selector,
      q ∈ (withdraw_balance s c b).2.players
    by_cases hb : b = 0
    · subst hb; rw [withdraw_zero s c]; exact h
    · rw [withdraw_ok s c b hb]; exact h
  | reset c =>
    show ∀ q ∈ (reset_contract s c).2.player_selector,
      q ∈ (reset_contract s c).2.players
    rw [reset_eq s c]
    intro q hq
    simp at hq

theorem step_posCount (s : NFTRaffle) (op : Op) (hop : buysPositive op = true)
    (h : ∀ q ∈ s.players, 0 < (hmLookup s.entry_count q).getD 0) :
    ∀ q ∈ (step s op).2.players,
      0 < (hmLookup (step s op).2.entry_count q).getD 0 := by
  cases op with
  | initRaffle ok addr i =>
    show ∀ q ∈ (initialize_raffle s ok addr i).2.players,
      0 < (hmLookup (initialize_raffle s ok addr i).2.entry_count q).getD 0
    rcases Bool.eq_false_or_eq_true s.raffle_status with hs | hs
    · rw [init_already s ok addr i hs]; exact h
    · by_cases hn : s.nft_address = Pubkey.default
      · by_cases ho : ok = addr
        · rw [init_ok s ok addr i hs hn ho]; exact h
        · rw [init_not_owner s ok addr i hs hn ho]; exact h
      · rw [init_prize_set s ok addr i hs hn]; exact h
  | buy p lam n =>
    exact buy_entry_posCount s p lam n (of_decide_eq_true hop) h
  | endRaffle c =>
    show ∀ q ∈ (end_raffle s c).2.players,
      0 < (hmLookup (end_raffle s c).2.entry_count q).getD 0
    rcases Bool.eq_false_or_eq_true s.raffle_status with hs | hs
    · rw [end_ok s c hs]; exact h
    · rw [end_not_started s c hs]; exact h
  | draw c r t =>
    show ∀ q ∈ (select_winner s c r t).2.players,
      0 < (hmLookup (select_winner s c r t).2.entry_count q).getD 0
    rcases Bool.eq_false_or_eq_true s.raffle_status with hs | hs
    · rw [sel_running s c r t hs]; exact h
    · by_cases he : s.player_selector = []
      · rw [sel_empty s c r t hs he]; exact h
      · by_cases hp : s.nft_address = Pubkey.default
        · rw [sel_no_prize s c r t hs he hp]; exact h
        · rcases Bool.eq_false_or_eq_true (t (winner_of s r)) with ht | ht
          · rw [sel_ok s c r t hs he hp ht]
            intro q hq
            simp at hq
          · rw [sel_transfer_fail s c r t hs he hp ht]; exact h
  | changeCost c n =>
    show ∀ q ∈ (change_entry_cost s c n).2.players,
      0 < (hmLookup (change_entry_cost s c n).2.entry_count q).getD 0
    rcases Bool.eq_false_or_eq_true s.raffle_status with hs | hs
    · rw [change_in_progress s c n hs]; exact h
    · rw [change_ok s c n hs]; exact h
  | withdraw c b =>
    show ∀ q ∈ (withdraw_balance s c b).2.players,
      0 < (hmLookup (withdraw_balance s c b).2.entry_count q).getD 0
    by_cases hb : b = 0
    · subst hb; rw [withdraw_zero s c]; exact h
    · rw [withdraw_ok s c b hb]; exact h
  | reset c =>
    show ∀ q ∈ (reset_contract s c).2.players,
      0 < (hmLookup (reset_contract s c).2.entry_count q).getD 0
    rw [reset_eq s c]
    intro q hq
    simp at hq

theorem run_poolSubset (s : NFTRaffle) (ops : List Op)
    (h : ∀ q ∈ s.player_selector, q ∈ s.players) :
    ∀ q ∈ (run s ops).player_selector, q ∈ (run s ops).players := by
  induction ops generalizing s with
  | nil => exact h
  | cons op t ih => exact ih _ (step_poolSubset s op h)

theorem run_posCount (s : NFTRaffle) (ops : List Op)
    (hops : ∀ op ∈ ops, buysPositive op = true)
    (h : ∀ q ∈ s.players, 0 < (hmLookup s.entry_count q).getD 0) :
    ∀ q ∈ (run s ops).players, 0 < (hmLookup (run s ops).entry_count q).getD 0 := by
  induction ops generalizing s with
  | nil => exact h
  | cons op t ih =>
    exact ih _ (fun o ho => hops o (List.mem_cons_of_mem op ho))
      (step_posCount s op (hops op (List.mem_cons_self op t)) h)

/-! ### The claims -/

/-- C1: the claim says each administrative operation fails with
`NotAuthority` for a caller other than the owner and leaves the ledger
unchanged.  The code performs no authority check at all (and declares no
such error): with owner `1` and caller `99`, `end_raffle` succeeds and
deactivates the raffle, `reset_contract` succeeds and wipes the ledger,
`change_entry_cost` succeeds and changes the price, `select_winner`
succeeds and pays out, and `withdraw_balance` succeeds. -/
theorem C1_no_authority_check :
    (99 : Pubkey) ≠ exampleActive.owner ∧ (99 : Pubkey) ≠ exampleClosed.owner ∧
    (end_raffle exampleActive 99).1 = none ∧
    (end_raffle exampleActive 99).2.raffle_status = false ∧
    (reset_contract exampleClosed 99).1 = none ∧
    (reset_contract exampleClosed 99).2 ≠ exampleClosed ∧
    (change_entry_cost exampleClosed 99 77).1 = none ∧
    (change_entry_cost exampleClosed 99 77).2.entry_cost = 77 ∧
    (select_winner exampleClosed 99 0 (fun _ => true)).1 = none ∧
    (select_winner exampleClosed 99 0 (fun _ => true)).2 ≠ exampleClosed ∧
    (withdraw_balance exampleClosed 99 5).1 = none := by
  decide

/-- C2: starting from a freshly created ledger, after every sequence of
operations `total_entries` equals the sum of the `entry_count` values and
equals the length of `player_selector`; in particular this holds after
every successful `buy_entry`. -/
theorem C2_counting_invariant (owner cost : Nat) (ops : List Op) :
    countInv (run (NFTRaffle.new owner cost) ops) :=
  run_countInv _ ops ⟨rfl, rfl⟩

/-- C3: whenever an operation returns an error, the ledger state at the
point of return equals the state before the call — every validation
precedes every write, including `select_winner`'s prize transfer, which is
attempted before any field is cleared. -/
theorem C3_error_no_partial_effect (s : NFTRaffle) (op : Op) (e : ErrorCode)
    (h : (step s op).1 = some e) : (step s op).2 = s := by
  cases op with
  | initRaffle ok addr i =>
    have h' : (initialize_raffle s ok addr i).1 = some e := h
    show (initialize_raffle s ok addr i).2 = s
    rcases Bool.eq_false_or_eq_true s.raffle_status with hs | hs
    · rw [init_already s ok addr i hs]
    · by_cases hn : s.nft_address = Pubkey.default
      · by_cases ho : ok = addr
        · rw [init_ok s ok addr i hs hn ho] at h'
          simp at h'
        · rw [init_not_owner s ok addr i hs hn ho]
      · rw [init_prize_set s ok addr i hs hn]
  | buy p lam n =>
    have h' : (buy_entry s p lam n).1 = some e := h
    show (buy_entry s p lam n).2 = s
    rcases Bool.eq_false_or_eq_true s.raffle_status with hs | hs
    · by_cases hlam : lam < s.entry_cost * n % U64MOD
      · rw [buy_entry_insufficient s p lam n hs hlam]
      · rw [buy_entry_ok s p lam n hs hlam] at h'
        simp at h'
    · rw [buy_entry_not_started s p lam n hs]
  | endRaffle c =>
    have h' : (end_raffle s c).1 = some e := h
    show (end_raffle s c).2 = s
    rcases Bool.eq_false_or_eq_true s.raffle_status with hs | hs
    · rw [end_ok s c hs] at h'
      simp at h'
    · rw [end_not_started s c hs]
  | draw c r t =>
    have h' : (select_winner s c r t).1 = some e := h
    show (select_winner s c r t).2 = s
    rcases Bool.eq_false_or_eq_true s.raffle_status with hs | hs
    · rw [sel_running s c r t hs]
    · by_cases he : s.player_selector = []
      · rw [sel_empty s c r t hs he]
      · by_cases hp : s.nft_address = Pubkey.default
        · rw [sel_no_prize s c r t hs he hp]
        · rcases Bool.eq_false_or_eq_true (t (winner_of s r)) with ht | ht
          · rw [sel_ok s c r t hs he hp ht] at h'
            simp at h'
          · rw [sel_transfer_fail s c r t hs he hp ht]
  | changeCost c n =>
    have h' : (change_entry_cost s c n).1 = some e := h
    show (change_entry_cost s c n).2 = s
    rcases Bool.eq_false_or_eq_true s.raffle_status with hs | hs
    · rw [change_in_progress s c n hs]
    · rw [change_ok s c n hs] at h'
      simp at h'
  | withdraw c b =>
    have h' : (withdraw_balance s c b).1 = some e := h
    show (withdraw_balance s c b).2 = s
    by_cases hb : b = 0
    · subst hb
      rw [withdraw_zero s c]
    · rw [withdraw_ok s c b hb] at h'
      simp at h'
  | reset c =>
    have h' : (reset_contract s c).1 = some e := h
    rw [reset_eq s c] at h'
    simp at h'

/-- C3 witness: on the reachable closed raffle with entries, a draw whose
prize transfer fails returns an error and leaves the ledger exactly as it
was. -/
theorem C3_error_no_partial_effect_witness :
    (step exampleClosed (Op.draw 1 0 (fun _ => false))).2 = exampleClosed :=
  C3_error_no_partial_effect exampleClosed (Op.draw 1 0 (fun _ => false))
    ErrorCode.TransferFailed (by decide)

/-- C4: a successful `select_winner` clears `entry_count`, `players` and
`player_selector`, resets the prize fields to their sentinel values, zeroes
`total_entries`, keeps the raffle inactive, and leaves `owner` and
`entry_cost` unchanged. -/
theorem C4_draw_success_resets (s : NFTRaffle) (c : Pubkey) (r : Nat)
    (t : Pubkey → Bool) (s' : NFTRaffle)
    (h : select_winner s c r t = (none, s')) :
    s'.entry_count = [] ∧ s'.players = [] ∧ s'.player_selector = [] ∧
    s'.nft_address = Pubkey.default ∧ s'.nft_id = 0 ∧ s'.total_entries = 0 ∧
    s'.raffle_status = false ∧ s'.owner = s.owner ∧
    s'.entry_cost = s.entry_cost := by
  rcases Bool.eq_false_or_eq_true s.raffle_status with hs | hs
  · rw [sel_running s c r t hs] at h
    simp at h
  · by_cases he : s.player_selector = []
    · rw [sel_empty s c r t hs he] at h
      simp at h
    · by_cases hp : s.nft_address = Pubkey.default
      · rw [sel_no_prize s c r t hs he hp] at h
        simp at h
      · rcases Bool.eq_false_or_eq_true (t (winner_of s r)) with ht | ht
        · rw [sel_ok s c r t hs he hp ht] at h
          simp only [Prod.mk.injEq] at h
          obtain ⟨-, h2⟩ := h
          subst h2
          exact ⟨rfl, rfl, rfl, rfl, rfl, rfl, hs, rfl, rfl⟩
        · rw [sel_transfer_fail s c r t hs he hp ht] at h
          simp at h

/-- C5: when `select_winner` passes its guards (raffle closed, pool
non-empty, prize set), the index `random_value % len(player_selector)` is a
valid index into `player_selector`, the winner it selects is an element of
`player_selector`, and in any state satisfying the data-model membership
invariant the winner's entry count is positive — a participant with zero
entries is never selected. -/
theorem C5_winner_from_pool (s : NFTRaffle) (r : Nat)
    (hs : s.raffle_status = false) (he : s.player_selector ≠ [])
    (hp : s.nft_address ≠ Pubkey.default) :
    r % s.player_selector.length < s.player_selector.length ∧
    winner_of s r ∈ s.player_selector ∧
    (memInv s → 0 < (hmLookup s.entry_count (winner_of s r)).getD 0) := by
  have hlen : 0 < s.player_selector.length := List.length_pos.mpr he
  have hidx : r % s.player_selector.length < s.player_selector.length :=
    Nat.mod_lt _ hlen
  have hmem : winner_of s r ∈ s.player_selector := by
    unfold winner_of
    rw [List.getD_eq_getElem s.player_selector Pubkey.default hidx]
    exact List.getElem_mem hidx
  exact ⟨hidx, hmem, fun hinv => hinv.2 _ (hinv.1 _ hmem)⟩

/-- C5 witness: on the reachable closed raffle, with random value `3` the
index is in range, the winner is in the pool, and (the membership invariant
holding there) has a positive entry count. -/
theorem C5_winner_from_pool_witness :
    memInv exampleClosed ∧
    (3 % exampleClosed.player_selector.length <
        exampleClosed.player_selector.length ∧
      winner_of exampleClosed 3 ∈ exampleClosed.player_selector ∧
      (memInv exampleClosed →
        0 < (hmLookup exampleClosed.entry_count
              (winner_of exampleClosed 3)).getD 0)) :=
  ⟨by decide, C5_winner_from_pool exampleClosed 3 (by decide) (by decide)
    (by decide)⟩

/-- C6: on an active raffle, a purchase of `n ≥ 1` entries whose funds
check passes succeeds, adds `n` to the player's entry count (creating it at
`n` if absent), leaves every other player's count unchanged, puts the
player into `players` without duplication, appends `n` copies of the player
to `player_selector`, adds `n` to `total_entries`, and changes no other
field. -/
theorem C6_buy_success_effects (s : NFTRaffle) (p : Pubkey) (lam n : Nat)
    (hs : s.raffle_status = true) (hn : 1 ≤ n)
    (hlam : ¬ lam < s.entry_cost * n % U64MOD) :
    (buy_entry s p lam n).1 = none ∧
    hmLookup (buy_entry s p lam n).2.entry_count p =
      some ((hmLookup s.entry_count p).getD 0 + n) ∧
    (∀ q, q ≠ p →
      hmLookup (buy_entry s p lam n).2.entry_count q = hmLookup s.entry_count q) ∧
    p ∈ (buy_entry s p lam n).2.players ∧
    (buy_entry s p lam n).2.players =
      (if p ∈ s.players then s.players else s.players ++ [p]) ∧
    (buy_entry s p lam n).2.player_selector =
      s.player_selector ++ List.replicate n p ∧
    (buy_entry s p lam n).2.total_entries = s.total_entries + n ∧
    (buy_entry s p lam n).2.owner = s.owner ∧
    (buy_entry s p lam n).2.entry_cost = s.entry_cost ∧
    (buy_entry s p lam n).2.raffle_status = s.raffle_status ∧
    (buy_entry s p lam n).2.nft_address = s.nft_address ∧
    (buy_entry s p lam n).2.nft_id = s.nft_id := by
  rw [buy_entry_ok s p lam n hs hlam]
  refine ⟨rfl, hmLookup_hmAddTo_self _ _ _,
    fun q hq => hmLookup_hmAddTo_ne _ _ _ _ hq, ?_, ?_, rfl, rfl, rfl, rfl,
    rfl, rfl, rfl⟩
  · by_cases hc : s.players.contains p = true
    · rw [if_pos hc]
      exact List.mem_of_elem_eq_true hc
    · rw [if_neg hc]
      exact List.mem_append.mpr (Or.inr (List.mem_singleton.mpr rfl))
  · by_cases hc : s.players.contains p = true
    · rw [if_pos hc, if_pos (List.mem_of_elem_eq_true hc)]
    · rw [if_neg hc, if_neg (fun hm => hc (List.elem_eq_true_of_mem hm))]

/-- C6 witness: on the reachable active raffle, player `7` with `30`
lamports buys `2` entries at cost `10` and all the listed effects hold. -/
theorem C6_buy_success_effects_witness :
    (buy_entry exampleActive 7 30 2).1 = none ∧
    hmLookup (buy_entry exampleActive 7 30 2).2.entry_count 7 =
      some ((hmLookup exampleActive.entry_count 7).getD 0 + 2) ∧
    (∀ q, q ≠ 7 →
      hmLookup (buy_entry exampleActive 7 30 2).2.entry_count q =
        hmLookup exampleActive.entry_count q) ∧
    (7 : Pubkey) ∈ (buy_entry exampleActive 7 30 2).2.players ∧
    (buy_entry exampleActive 7 30 2).2.players =
      (if (7 : Pubkey) ∈ exampleActive.players then exampleActive.players
       else exampleActive.players ++ [7]) ∧
    (buy_entry exampleActive 7 30 2).2.player_selector =
      exampleActive.player_selector ++ List.replicate 2 7 ∧
    (buy_entry exampleActive 7 30 2).2.total_entries =
      exampleActive.total_entries + 2 ∧
    (buy_entry exampleActive 7 30 2).2.owner = exampleActive.owner ∧
    (buy_entry exampleActive 7 30 2).2.entry_cost = exampleActive.entry_cost ∧
    (buy_entry exampleActive 7 30 2).2.raffle_status =
      exampleActive.raffle_status ∧
    (buy_entry exampleActive 7 30 2).2.nft_address =
      exampleActive.nft_address ∧
    (buy_entry exampleActive 7 30 2).2.nft_id = exampleActive.nft_id :=
  C6_buy_success_effects exampleActive 7 30 2 (by decide) (by decide)
    (by decide)

/-- C7 counterexample: with entry cost `2^63` (a reachable state), buying
`2` entries exactly requires `2^64` lamports, more than the payer's `0`;
the claim says the call must fail with `InsufficientFunds`, but the `u64`
product wraps to `0`, the check passes, and the call succeeds. -/
theorem C7_exact_product_counterexample :
    overflowActive.raffle_status = true ∧
    overflowActive.entry_cost = 2 ^ 63 ∧
    (0 : Nat) < overflowActive.entry_cost * 2 ∧
    (buy_entry overflowActive 7 0 2).1 ≠ some ErrorCode.InsufficientFunds ∧
    (buy_entry overflowActive 7 0 2).1 = none := by
  decide

/-- C7 (amended): on an active raffle, `buy_entry` fails with
`InsufficientFunds` exactly when the payer's balance is below the `u64`
wrapping product `entry_cost * number_of_entries % 2^64`, and otherwise the
funds check passes. -/
theorem C7_funds_check_wraps (s : NFTRaffle) (p : Pubkey) (lam n : Nat)
    (hs : s.raffle_status = true) :
    ((buy_entry s p lam n).1 = some ErrorCode.InsufficientFunds ↔
      lam < s.entry_cost * n % U64MOD) := by
  by_cases hlam : lam < s.entry_cost * n % U64MOD
  · rw [buy_entry_insufficient s p lam n hs hlam]
    simp [hlam]
  · rw [buy_entry_ok s p lam n hs hlam]
    simp [hlam]

/-- C7 witness: on the reachable overflow state the equivalence holds
concretely — balance `0` is not below the wrapped product `0`, and the call
does not fail with `InsufficientFunds`. -/
theorem C7_funds_check_wraps_witness :
    ((buy_entry overflowActive 7 0 2).1 = some ErrorCode.InsufficientFunds ↔
      0 < overflowActive.entry_cost * 2 % U64MOD) :=
  C7_funds_check_wraps overflowActive 7 0 2 (by decide)

/-- C8 counterexample: a purchase of `0` entries (which the code accepts)
puts the player into `players` with an entry count of `0`, so the claimed
invariant "every identity in `participants` has a positive entry count"
fails on a reachable state. -/
theorem C8_membership_counterexample :
    ¬ memInv (run (NFTRaffle.new 1 10) [Op.initRaffle 5 5 1, Op.buy 7 0 0]) := by
  decide

/-- C8 (amended): starting from a freshly created ledger, every identity in
`player_selector` always appears in `players`; and provided every `buy` in
the sequence purchases at least one entry, every identity in `players` also
has a positive entry count. -/
theorem C8_membership_invariant (owner cost : Nat) (ops : List Op) :
    (∀ q ∈ (run (NFTRaffle.new owner cost) ops).player_selector,
        q ∈ (run (NFTRaffle.new owner cost) ops).players) ∧
    ((∀ op ∈ ops, buysPositive op = true) →
        memInv (run (NFTRaffle.new owner cost) ops)) := by
  have hsel : ∀ q ∈ (NFTRaffle.new owner cost).player_selector,
      q ∈ (NFTRaffle.new owner cost).players := by
    intro q hq
    simp [NFTRaffle.new] at hq
  have hpos : ∀ q ∈ (NFTRaffle.new owner cost).players,
      0 < (hmLookup (NFTRaffle.new owner cost).entry_count q).getD 0 := by
    intro q hq
    simp [NFTRaffle.new] at hq
  exact ⟨run_poolSubset _ ops hsel,
    fun hops => ⟨run_poolSubset _ ops hsel, run_posCount _ ops hops hpos⟩⟩

/-- C8 witness: a sequence whose only purchase buys two entries satisfies
the full membership invariant. -/
theorem C8_membership_invariant_witness :
    memInv (run (NFTRaffle.new 1 10) [Op.initRaffle 5 5 1, Op.buy 7 30 2]) :=
  (C8_membership_invariant 1 10 [Op.initRaffle 5 5 1, Op.buy 7 30 2]).2
    (by decide)

/-- C9: `initialize_raffle` can succeed only when the caller's key equals
the `nft_address` argument itself; once the first two guards pass, it
returns `OwnerDoesNotOwnNFT` exactly when they differ; and the outcome is
independent of the ledger's stored `owner` field. -/
theorem C9_asset_owner_check (s : NFTRaffle) (ok addr : Pubkey) (i : Nat) :
    ((initialize_raffle s ok addr i).1 = none → ok = addr) ∧
    (s.raffle_status = false → s.nft_address = Pubkey.default →
      ((initialize_raffle s ok addr i).1 = some ErrorCode.OwnerDoesNotOwnNFT ↔
        ok ≠ addr)) ∧
    (∀ o : Pubkey, (initialize_raffle { s with owner := o } ok addr i).1 =
      (initialize_raffle s ok addr i).1) := by
  refine ⟨?_, ?_, ?_⟩
  · intro h
    rcases Bool.eq_false_or_eq_true s.raffle_status with hs | hs
    · rw [init_already s ok addr i hs] at h
      simp at h
    · by_cases hn : s.nft_address = Pubkey.default
      · by_cases ho : ok = addr
        · exact ho
        · rw [init_not_owner s ok addr i hs hn ho] at h
          simp at h
      · rw [init_prize_set s ok addr i hs hn] at h
        simp at h
  · intro hs hn
    constructor
    · intro h ho
      rw [init_ok s ok addr i hs hn ho] at h
      simp at h
    · intro ho
      rw [init_not_owner s ok addr i hs hn ho]
  · intro o
    rcases Bool.eq_false_or_eq_true s.raffle_status with hs | hs
    · rw [init_already s ok addr i hs, init_already { s with owner := o } ok addr i hs]
    · by_cases hn : s.nft_address = Pubkey.default
      · by_cases ho : ok = addr
        · rw [init_ok s ok addr i hs hn ho,
            init_ok { s with owner := o } ok addr i hs hn ho]
        · rw [init_not_owner s ok addr i hs hn ho,
            init_not_owner { s with owner := o } ok addr i hs hn ho]
      · rw [init_prize_set s ok addr i hs hn,
          init_prize_set { s with owner := o } ok addr i hs hn]

/-- C9 witness: on a fresh ledger (inactive, no prize), caller `9` asking to
assign asset `5` gets `OwnerDoesNotOwnNFT` because `9 ≠ 5`. -/
theorem C9_asset_owner_check_witness :
    (NFTRaffle.new 1 10).raffle_status = false ∧
    (NFTRaffle.new 1 10).nft_address = Pubkey.default ∧
    ((initialize_raffle (NFTRaffle.new 1 10) 9 5 1).1 =
        some ErrorCode.OwnerDoesNotOwnNFT ↔ (9 : Pubkey) ≠ 5) :=
  ⟨by decide, by decide,
    (C9_asset_owner_check (NFTRaffle.new 1 10) 9 5 1).2.1 (by decide) (by decide)⟩

/-- C10: on an active raffle, a purchase of `0` entries succeeds for every
payer balance (the required amount is `0`): the player joins `players`
(with entry count `0` if previously absent from the count map), while
`player_selector` and `total_entries` are unchanged. -/
theorem C10_zero_entry_purchase (s : NFTRaffle) (p : Pubkey) (lam : Nat)
    (hs : s.raffle_status = true) :
    (buy_entry s p lam 0).1 = none ∧
    (buy_entry s p lam 0).2.player_selector = s.player_selector ∧
    (buy_entry s p lam 0).2.total_entries = s.total_entries ∧
    p ∈ (buy_entry s p lam 0).2.players ∧
    (p ∉ s.players → (buy_entry s p lam 0).2.players = s.players ++ [p]) ∧
    (p ∈ s.players → (buy_entry s p lam 0).2.players = s.players) ∧
    (hmLookup s.entry_count p = none →
      hmLookup (buy_entry s p lam 0).2.entry_count p = some 0) := by
  have hlam : ¬ lam < s.entry_cost * 0 % U64MOD := by simp
  rw [buy_entry_ok s p lam 0 hs hlam]
  refine ⟨rfl, by simp, rfl, ?_, ?_, ?_, ?_⟩
  · by_cases hc : s.players.contains p = true
    · rw [if_pos hc]
      exact List.mem_of_elem_eq_true hc
    · rw [if_neg hc]
      exact List.mem_append.mpr (Or.inr (List.mem_singleton.mpr rfl))
  · intro hm
    rw [if_neg (fun hc => hm (List.mem_of_elem_eq_true hc))]
  · intro hm
    rw [if_pos (List.elem_eq_true_of_mem hm)]
  · intro hm
    rw [hmLookup_hmAddTo_self, hm]
    rfl

/-- C10 witness: on the reachable active raffle, player `7` with balance
`0` buys `0` entries; the call succeeds and the listed effects hold. -/
theorem C10_zero_entry_purchase_witness :
    (buy_entry exampleActive 7 0 0).1 = none ∧
    (buy_entry exampleActive 7 0 0).2.player_selector =
      exampleActive.player_selector ∧
    (buy_entry exampleActive 7 0 0).2.total_entries =
      exampleActive.total_entries ∧
    (7 : Pubkey) ∈ (buy_entry exampleActive 7 0 0).2.players ∧
    ((7 : Pubkey) ∉ exampleActive.players →
      (buy_entry exampleActive 7 0 0).2.players =
        exampleActive.players ++ [7]) ∧
    ((7 : Pubkey) ∈ exampleActive.players →
      (buy_entry exampleActive 7 0 0).2.players = exampleActive.players) ∧
    (hmLookup exampleActive.entry_count 7 = none →
      hmLookup (buy_entry exampleActive 7 0 0).2.entry_count 7 = some 0) :=
  C10_zero_entry_purchase exampleActive 7 0 (by decide)

/-- C4 witness: drawing on the reachable closed raffle with a succeeding
transfer produces exactly the freshly-created ledger with the same owner
and cost. -/
theorem C4_draw_success_resets_witness :
    (NFTRaffle.new 1 10).entry_count = [] ∧ (NFTRaffle.new 1 10).players = [] ∧
    (NFTRaffle.new 1 10).player_selector = [] ∧
    (NFTRaffle.new 1 10).nft_address = Pubkey.default ∧
    (NFTRaffle.new 1 10).nft_id = 0 ∧ (NFTRaffle.new 1 10).total_entries = 0 ∧
    (NFTRaffle.new 1 10).raffle_status = false ∧
    (NFTRaffle.new 1 10).owner = exampleClosed.owner ∧
    (NFTRaffle.new 1 10).entry_cost = exampleClosed.entry_cost :=
  C4_draw_success_resets exampleClosed 1 0 (fun _ => true) (NFTRaffle.new 1 10)
    (by decide)

end Raffle
